import Mathlib

/-!
# Verification of the Roo-Code multi-profile configuration store

Shallow embedding of `src/src/core/config/ConfigManager.ts` (the persisted
multi-profile configuration store) and of the profile-specific override layer
of the webview UI state (`ExtensionStateContext`: `setProfileSpecificSetting`,
`isProfileSpecific`, `toggleProfileSpecific`, and the resolution expression
used by `RateLimitControl`).

Modelling conventions:
* A JavaScript object used as a string-keyed dictionary is modelled as an
  insertion-ordered association list `List (String × α)`:
  `obj[k]` is first-match lookup, `obj[k] = v` updates in place when the key
  exists and appends otherwise, `delete obj[k]` removes the key, and
  `Object.entries` / `Object.values` / `Object.keys` iterate in that order
  (the source only uses non-numeric string keys).
* `undefined` / missing fields are `Option.none`.
* The secrets store holds at most one blob under the fixed config key; it is
  modelled as `Option ApiConfigData` (`none` = no blob stored).  Each
  operation is a pure function that also returns the list of blobs written
  to the adapter (`context.secrets.store` calls), in order.
* `Math.random().toString(36).substring(2, 15)` (`generateId`) is
  nondeterministic; it is threaded as an explicit string argument (or a
  `Nat → String` supply for the migration loop).  The JavaScript truthiness
  test `!apiConfig.id` and the fallback `existingConfig?.id || generateId()`
  treat the empty string as missing, which the model reproduces.
* `context.globalState.get("rateLimitSeconds")` is threaded as an explicit
  `Option Int` argument (`none` = absent, or the read threw).
-/

/-- `obj[k]` on a JavaScript object: first binding for the key, if any. -/
def objGet {α : Type} (m : List (String × α)) (k : String) : Option α :=
  (m.find? (fun p => p.1 = k)).map (fun p => p.2)

/-- `obj[k] = v`: update in place when the key exists, append otherwise. -/
def objSet {α : Type} (m : List (String × α)) (k : String) (v : α) :
    List (String × α) :=
  if (objGet m k).isSome then
    m.map (fun p => if p.1 = k then (k, v) else p)
  else
    m ++ [(k, v)]

/-- `delete obj[k]`: remove every binding of the key. -/
def objDelete {α : Type} (m : List (String × α)) (k : String) :
    List (String × α) :=
  m.filter (fun p => p.1 ≠ k)

/-- `Object.keys(obj)`, in insertion order. -/
def objKeys {α : Type} (m : List (String × α)) : List String :=
  m.map (fun p => p.1)

/-- `Object.values(obj)`, in insertion order. -/
def objValues {α : Type} (m : List (String × α)) : List α :=
  m.map (fun p => p.2)

/-- JavaScript `o || fallback` on an optional string: the empty string is
falsy, so it falls through to the fallback. -/
def jsOrStr (o : Option String) (fallback : String) : String :=
  match o with
  | some s => if s = "" then fallback else s
  | none => fallback

/-- JavaScript truthiness of `!apiConfig.id`: missing or empty string. -/
def idFalsy : Option String → Bool
  | none => true
  | some s => s = ""

/-- The fields of `ApiConfiguration` the store manipulates (`id`,
`apiProvider`, `rateLimitSeconds`); every other field is opaque payload and
irrelevant to the verified properties. -/
structure ApiConfiguration where
  id : Option String := none
  apiProvider : Option String := none
  rateLimitSeconds : Option Int := none
  deriving Repr, DecidableEq

/-- The `migrations` tracking object of `ApiConfigData`. -/
structure Migrations where
  rateLimitMigrated : Option Bool := none
  deriving Repr, DecidableEq

/-- The persisted Document (`ApiConfigData` in `ConfigManager.ts`). -/
structure ApiConfigData where
  currentApiConfigName : String
  apiConfigs : List (String × ApiConfiguration)
  modeApiConfigs : Option (List (String × String)) := none
  migrations : Option Migrations := none
  deriving Repr, DecidableEq

/-- One row of `listConfig`'s projection (`ApiConfigMeta`). -/
structure ApiConfigMeta where
  name : String
  id : String
  apiProvider : Option String
  deriving Repr, DecidableEq

/-- `ConfigManager.defaultConfig`; `did` is the id produced by the single
`generateId()` call at construction. -/
def defaultConfig (did : String) : ApiConfigData :=
  { currentApiConfigName := "default"
    apiConfigs := [("default", { id := some did, rateLimitSeconds := some 0 })]
    migrations := some { rateLimitMigrated := some true } }

/-- `readConfig`: serve the stored blob when present, else the in-memory
default Document (no write happens here). -/
def readConfig (store : Option ApiConfigData) (did : String) : ApiConfigData :=
  match store with
  | some d => d
  | none => defaultConfig did

/-- Errors thrown inside the gate (before the outer per-operation rewrap). -/
inductive ConfigError where
  | notFound (name : String)
  | lastProfile
  deriving Repr, DecidableEq

instance exceptDecEq {ε α : Type} [DecidableEq ε] [DecidableEq α] :
    DecidableEq (Except ε α) := fun x y =>
  match x, y with
  | Except.error a, Except.error b =>
    if h : a = b then Decidable.isTrue (by rw [h])
    else Decidable.isFalse (fun hc => by cases hc; exact h rfl)
  | Except.error _, Except.ok _ => Decidable.isFalse (fun hc => by cases hc)
  | Except.ok _, Except.error _ => Decidable.isFalse (fun hc => by cases hc)
  | Except.ok a, Except.ok b =>
    if h : a = b then Decidable.isTrue (by rw [h])
    else Decidable.isFalse (fun hc => by cases hc; exact h rfl)

/-- Outcome of one gated operation: its result and the blobs written to the
adapter, in order. -/
structure OpResult (α : Type) where
  res : Except ConfigError α
  writes : List ApiConfigData
  deriving Repr, DecidableEq

/-- The blob stored after an operation ran against document `d`: the last
write, or the original document when the operation wrote nothing. -/
def persistedAfter (d : ApiConfigData) (writes : List ApiConfigData) :
    ApiConfigData :=
  match writes.getLast? with
  | some w => w
  | none => d

/-- The profile value `saveConfig(name, config)` stores under `name`: the
incoming configuration, back-filled with a rate limit when it has none, with
the id `existingConfig?.id || generateId()`.  `legacy` is
`globalState.get("rateLimitSeconds")` and `freshId` the value `generateId()`
would return. -/
def saveEntry (d : ApiConfigData) (legacy : Option Int) (freshId : String)
    (name : String) (config : ApiConfiguration) : ApiConfiguration :=
  let existingConfig := objGet d.apiConfigs name
  -- if (!existingConfig || config.rateLimitSeconds === undefined)
  let config :=
    if existingConfig.isNone ∨ config.rateLimitSeconds = none then
      -- if (config.rateLimitSeconds === undefined)
      if config.rateLimitSeconds = none then
        -- const anyExistingConfig = Object.values(currentConfig.apiConfigs)[0]
        let anyExistingConfig := (objValues d.apiConfigs).head?
        let globalRateLimit : Int :=
          match anyExistingConfig.bind (fun c => c.rateLimitSeconds) with
          | some r => r
          | none =>
            -- fall back to global state, else the default of 5
            match legacy with
            | some g => g
            | none => 5
        { config with rateLimitSeconds := some globalRateLimit }
      else config
    else config
  -- { ...config, id: existingConfig?.id || this.generateId() }
  { config with
      id := some (jsOrStr (existingConfig.bind (fun c => c.id)) freshId) }

/-- `saveConfig(name, config)` body (inside the gate), acting on the document
read from the store: store the (back-filled) entry under `name` and persist. -/
def saveConfig (d : ApiConfigData) (legacy : Option Int) (freshId : String)
    (name : String) (config : ApiConfiguration) :
    ApiConfigData × List ApiConfigData :=
  let d' :=
    { d with
        apiConfigs :=
          objSet d.apiConfigs name (saveEntry d legacy freshId name config) }
  (d', [d'])

/-- `loadConfig(name)` body: fails when absent, else activates the profile
(sets `currentApiConfigName`) and persists. -/
def loadConfig (d : ApiConfigData) (name : String) :
    OpResult ApiConfiguration :=
  match objGet d.apiConfigs name with
  | none => { res := Except.error (ConfigError.notFound name), writes := [] }
  | some apiConfig =>
    let d' := { d with currentApiConfigName := name }
    { res := Except.ok apiConfig, writes := [d'] }

/-- `deleteConfig(name)` body: not-found check, then last-profile check, then
remove and persist. -/
def deleteConfig (d : ApiConfigData) (name : String) : OpResult Unit :=
  if (objGet d.apiConfigs name).isNone then
    { res := Except.error (ConfigError.notFound name), writes := [] }
  else if (objKeys d.apiConfigs).length = 1 then
    { res := Except.error ConfigError.lastProfile, writes := [] }
  else
    let d' := { d with apiConfigs := objDelete d.apiConfigs name }
    { res := Except.ok (), writes := [d'] }

/-- `setCurrentConfig(name)` body. -/
def setCurrentConfig (d : ApiConfigData) (name : String) : OpResult Unit :=
  if (objGet d.apiConfigs name).isNone then
    { res := Except.error (ConfigError.notFound name), writes := [] }
  else
    let d' := { d with currentApiConfigName := name }
    { res := Except.ok (), writes := [d'] }

/-- `setModeConfig(mode, configId)` body: initialize the map when absent and
bind unconditionally (no existence validation). -/
def setModeConfig (d : ApiConfigData) (mode : String) (configId : String) :
    ApiConfigData × List ApiConfigData :=
  let m := match d.modeApiConfigs with
    | some m => m
    | none => []
  let d' := { d with modeApiConfigs := some (objSet m mode configId) }
  (d', [d'])

/-- `getModeConfigId(mode)` body: pure read. -/
def getModeConfigId (store : Option ApiConfigData) (did : String)
    (mode : String) : Option String × List ApiConfigData :=
  let config := readConfig store did
  ((match config.modeApiConfigs with
    | some m => objGet m mode
    | none => none), [])

/-- `hasConfig(name)` body: pure read. -/
def hasConfig (store : Option ApiConfigData) (did : String) (name : String) :
    Bool × List ApiConfigData :=
  let config := readConfig store did
  ((objKeys config.apiConfigs).contains name, [])

/-- `listConfig` body: pure projection `{name, id: apiConfig.id || "", apiProvider}`. -/
def listConfig (store : Option ApiConfigData) (did : String) :
    List ApiConfigMeta × List ApiConfigData :=
  let config := readConfig store did
  (config.apiConfigs.map (fun p =>
    { name := p.1, id := jsOrStr p.2.id "", apiProvider := p.2.apiProvider }),
   [])

/-- The id-assignment migration loop of `initConfig`: walk the profiles in
order, give every profile with a falsy id the next value of the `ids` supply
(successive `generateId()` results), and report whether anything changed.
Returns the rewritten profile list, the next unused supply index, and the
changed flag. -/
def assignIds (ids : Nat → String) :
    Nat → List (String × ApiConfiguration) →
    List (String × ApiConfiguration) × Nat × Bool
  | k, [] => ([], k, false)
  | k, (n, c) :: rest =>
    if idFalsy c.id then
      let r := assignIds ids (k + 1) rest
      ((n, { c with id := some (ids k) }) :: r.1, r.2.1, true)
    else
      let r := assignIds ids k rest
      ((n, c) :: r.1, r.2.1, r.2.2)

/-- `migrateRateLimit`: take the legacy global value (default 5 when absent)
and write it into every profile that has no `rateLimitSeconds` yet; profiles
that already have the key keep their value. -/
def migrateRateLimit (legacy : Option Int) (config : ApiConfigData) :
    ApiConfigData :=
  let rateLimitSeconds : Int :=
    match legacy with
    | some g => g
    | none => 5
  { config with
      apiConfigs := config.apiConfigs.map (fun p =>
        if p.2.rateLimitSeconds = none then
          (p.1, { p.2 with rateLimitSeconds := some rateLimitSeconds })
        else p) }

/-- The flag test `!config.migrations.rateLimitMigrated` (after the
`migrations` object is guaranteed present). -/
def rlMigratedFlag (d : ApiConfigData) : Bool :=
  match d.migrations.bind (fun m => m.rateLimitMigrated) with
  | some b => b
  | none => false

/-- The migration pass of `initConfig` (everything after the read): ensure
the `migrations` object exists, assign missing ids, run the rate-limit
migration when its flag is unset and mark it applied.  Returns the migrated
document and `needsMigration` (whether `initConfig` will write it back). -/
def ensureMigrated (ids : Nat → String) (legacy : Option Int)
    (config0 : ApiConfigData) : ApiConfigData × Bool :=
  -- if (!config.migrations) config.migrations = {}
  let config1 :=
    if config0.migrations.isNone then { config0 with migrations := some {} }
    else config0
  -- Migrate: ensure all configs have IDs
  let r := assignIds ids 0 config1.apiConfigs
  let config2 := { config1 with apiConfigs := r.1 }
  -- Apply rate limit migration if needed
  if rlMigratedFlag config2 = false then
    let config3 := migrateRateLimit legacy config2
    let config4 :=
      { config3 with migrations := some { rateLimitMigrated := some true } }
    (config4, true)
  else
    (config2, r.2.2)

/-- `initConfig` body inside the gate.  (`readConfig` never returns a falsy
value in the source — it substitutes `defaultConfig` for a missing blob — so
the `if (!config)` write-default branch is dead and the live path is the
migration pass followed by at most one combined write.) -/
def initConfig (store : Option ApiConfigData) (did : String)
    (ids : Nat → String) (legacy : Option Int) :
    ApiConfigData × List ApiConfigData :=
  let config := readConfig store did
  let r := ensureMigrated ids legacy config
  (r.1, if r.2 then [r.1] else [])

/-- The document invariant of the spec: the active profile name is a key of
`profiles`. -/
def docInv (d : ApiConfigData) : Prop :=
  d.currentApiConfigName ∈ objKeys d.apiConfigs

instance (d : ApiConfigData) : Decidable (docInv d) := by
  unfold docInv; infer_instance

/-- The ids already in use by the document's profiles. -/
def idsOf (d : ApiConfigData) : List String :=
  d.apiConfigs.filterMap (fun p => p.2.id)

/-- The rate limit of the document's first profile
(`Object.values(apiConfigs)[0]?.rateLimitSeconds`), the only profile value
`saveConfig`'s back-fill consults. -/
def firstProfileRateLimit (d : ApiConfigData) : Option Int :=
  ((objValues d.apiConfigs).head?).bind (fun c => c.rateLimitSeconds)

/-- The rate limit a profile ends up with after the rate-limit migration:
its own already-present value, else the legacy global value, else 5. -/
def migratedRateLimit (legacy : Option Int) (o : Option Int) : Int :=
  match o with
  | some v => v
  | none =>
    match legacy with
    | some g => g
    | none => 5

/-- A concrete two-profile document used to exercise the theorems on
explicit inputs. -/
def exampleTwoProfiles : ApiConfigData :=
  { currentApiConfigName := "default"
    apiConfigs :=
      [("default", { id := some "d1" }), ("test", { id := some "t1" })] }

/-- `exampleTwoProfiles` after the "test" profile is removed. -/
def exampleTwoProfilesShrunk : ApiConfigData :=
  { currentApiConfigName := "default"
    apiConfigs := [("default", { id := some "d1" })] }

/-- A concrete document whose first profile lacks `rateLimitSeconds` while
its second profile has it set to `7`. -/
def exampleSecondHasRate : ApiConfigData :=
  { currentApiConfigName := "a"
    apiConfigs :=
      [("a", { id := some "ia" }),
       ("b", { id := some "ib", rateLimitSeconds := some 7 })]
    migrations := some { rateLimitMigrated := some true } }

/-- A concrete legacy document: no `migrations` object, the profile "a" has
no id and no `rateLimitSeconds`, profile "b" has both. -/
def exampleLegacyDoc : ApiConfigData :=
  { currentApiConfigName := "a"
    apiConfigs :=
      [("a", {}),
       ("b", { id := some "ib", rateLimitSeconds := some 2 })] }

/-!
## Override layer (webview `ExtensionStateContext`)

The profile-specific override state lives in the UI provider's React state:
`profileSpecificSettings` maps a profile id to an object of per-setting
override values.  Setting values here are numeric (`rateLimitSeconds` is the
setting the control in `RateLimitControl.tsx` drives), modelled as `Int`.
-/

/-- The slice of the provider state the override layer touches: the global
value of a setting and the nested `profileSpecificSettings` object. -/
structure UIState where
  globalValue : Int
  profileSpecificSettings : List (String × List (String × Int))
  deriving Repr, DecidableEq

/-- `setProfileSpecificSetting(profileId, setting, value)`: spread-copy the
nested objects and record the value under `[profileId][setting]`. -/
def setProfileSpecificSetting (st : UIState) (profileId setting : String)
    (value : Int) : UIState :=
  let pss := st.profileSpecificSettings
  let profileSettings :=
    match objGet pss profileId with
    | some ps => ps
    | none => []
  { st with
      profileSpecificSettings :=
        objSet pss profileId (objSet profileSettings setting value) }

/-- `isProfileSpecific(profileId, setting)`:
`state.profileSpecificSettings?.[profileId]?.[setting] !== undefined`. -/
def isProfileSpecific (st : UIState) (profileId setting : String) : Bool :=
  ((objGet st.profileSpecificSettings profileId).bind
    (fun ps => objGet ps setting)).isSome

/-- The resolution expression the settings UI evaluates (RateLimitControl
value binding): `isProfileSpecific(id, s) ?
(profileSpecificSettings?.[id]?.[s] ?? globalValue) : globalValue`. -/
def resolveSetting (st : UIState) (profileId setting : String)
    (globalValue : Int) : Int :=
  if isProfileSpecific st profileId setting then
    match (objGet st.profileSpecificSettings profileId).bind
        (fun ps => objGet ps setting) with
    | some v => v
    | none => globalValue
  else globalValue

/-- A concrete provider state with no profile-specific overrides. -/
def exampleUIEmpty : UIState :=
  { globalValue := 3, profileSpecificSettings := [] }

/-!
## Association-list lemmas (JavaScript object semantics)
-/

theorem objGet_nil {α : Type} (k : String) :
    objGet ([] : List (String × α)) k = none := rfl

theorem objGet_cons {α : Type} (p : String × α) (m : List (String × α))
    (k : String) :
    objGet (p :: m) k = if p.1 = k then some p.2 else objGet m k := by
  by_cases h : p.1 = k
  · simp [objGet, List.find?_cons_of_pos, h]
  · simp [objGet, List.find?_cons_of_neg, h]

theorem objKeys_nil {α : Type} : objKeys ([] : List (String × α)) = [] := rfl

theorem objKeys_cons {α : Type} (p : String × α) (m : List (String × α)) :
    objKeys (p :: m) = p.1 :: objKeys m := rfl

theorem objGet_eq_none_iff {α : Type} (m : List (String × α)) (k : String) :
    objGet m k = none ↔ k ∉ objKeys m := by
  induction m with
  | nil => simp [objGet_nil, objKeys_nil]
  | cons p rest ih =>
    rw [objGet_cons, objKeys_cons]
    by_cases h : p.1 = k
    · simp [h]
    · simp only [if_neg h, List.mem_cons, ih]
      constructor
      · intro hk hc
        rcases hc with hc | hc
        · exact h hc.symm
        · exact hk hc
      · intro hk
        exact fun hc => hk (Or.inr hc)

theorem objGet_isSome_iff {α : Type} (m : List (String × α)) (k : String) :
    (objGet m k).isSome = true ↔ k ∈ objKeys m := by
  cases h : objGet m k with
  | none =>
    simp only [Option.isSome_none, Bool.false_eq_true, false_iff]
    exact (objGet_eq_none_iff m k).mp h
  | some v =>
    simp only [Option.isSome_some, true_iff]
    by_contra hk
    have hnone := (objGet_eq_none_iff m k).mpr hk
    rw [h] at hnone
    simp at hnone

theorem objGet_map_upd {α : Type} (m : List (String × α)) (k : String) (v : α)
    (h : (objGet m k).isSome = true) :
    objGet (m.map (fun p => if p.1 = k then (k, v) else p)) k = some v := by
  induction m with
  | nil => simp [objGet] at h
  | cons p rest ih =>
    by_cases hp : p.1 = k
    · simp [List.map_cons, hp, objGet_cons]
    · rw [objGet_cons, if_neg hp] at h
      simpa [List.map_cons, hp, objGet_cons] using ih h

theorem objGet_append_single {α : Type} (m : List (String × α)) (k : String)
    (v : α) (h : objGet m k = none) :
    objGet (m ++ [(k, v)]) k = some v := by
  induction m with
  | nil => simp [objGet_cons]
  | cons p rest ih =>
    rw [objGet_cons] at h
    by_cases hp : p.1 = k
    · rw [if_pos hp] at h
      simp at h
    · rw [if_neg hp] at h
      rw [List.cons_append, objGet_cons, if_neg hp]
      exact ih h

theorem objGet_objSet_self {α : Type} (m : List (String × α)) (k : String)
    (v : α) : objGet (objSet m k v) k = some v := by
  unfold objSet
  by_cases h : (objGet m k).isSome = true
  · rw [if_pos h]
    exact objGet_map_upd m k v h
  · rw [if_neg h]
    exact objGet_append_single m k v (Option.not_isSome_iff_eq_none.mp h)

theorem objKeys_map_upd {α : Type} (m : List (String × α)) (k : String)
    (v : α) :
    objKeys (m.map (fun p => if p.1 = k then (k, v) else p)) = objKeys m := by
  induction m with
  | nil => rfl
  | cons p rest ih =>
    by_cases hp : p.1 = k
    · simp [List.map_cons, hp, objKeys_cons, ih]
    · simp [List.map_cons, hp, objKeys_cons, ih]

theorem objKeys_objSet {α : Type} (m : List (String × α)) (k : String)
    (v : α) :
    objKeys (objSet m k v) =
      if (objGet m k).isSome then objKeys m else objKeys m ++ [k] := by
  unfold objSet
  by_cases h : (objGet m k).isSome = true
  · rw [if_pos h, if_pos h, objKeys_map_upd]
  · rw [if_neg h, if_neg h]
    simp [objKeys]

theorem mem_objKeys_objSet {α : Type} (m : List (String × α)) (a k : String)
    (v : α) (ha : a ∈ objKeys m) : a ∈ objKeys (objSet m k v) := by
  rw [objKeys_objSet]
  by_cases h : (objGet m k).isSome = true
  · rw [if_pos h]; exact ha
  · rw [if_neg h]; exact List.mem_append_left _ ha

theorem mem_objKeys_objDelete {α : Type} (m : List (String × α))
    (a k : String) (ha : a ∈ objKeys m) (hne : a ≠ k) :
    a ∈ objKeys (objDelete m k) := by
  unfold objDelete objKeys at *
  rw [List.mem_map] at ha
  obtain ⟨p, hp, hpa⟩ := ha
  rw [List.mem_map]
  refine ⟨p, ?_, hpa⟩
  rw [List.mem_filter]
  exact ⟨hp, by simp [hpa, hne]⟩

theorem isNone_objGet_of_not_mem {α : Type} (m : List (String × α))
    (k : String) (h : k ∉ objKeys m) : (objGet m k).isNone = true := by
  rw [Option.isNone_iff_eq_none, objGet_eq_none_iff]
  exact h

theorem not_isNone_objGet_of_mem {α : Type} (m : List (String × α))
    (k : String) (h : k ∈ objKeys m) : ¬(objGet m k).isNone = true := by
  simp only [Option.isNone_iff_eq_none, objGet_eq_none_iff]
  exact not_not_intro h

theorem keys_eq_singleton_of_mem_len {α : Type} (m : List (String × α))
    (k : String) (hin : k ∈ objKeys m) (hlen : (objKeys m).length = 1) :
    objKeys m = [k] := by
  cases hk : objKeys m with
  | nil =>
    rw [hk] at hin
    cases hin
  | cons a rest =>
    rw [hk] at hlen hin
    simp only [List.length_cons, Nat.add_left_eq_self.symm] at hlen
    have hrest : rest = [] := List.length_eq_zero.mp (by omega)
    subst hrest
    simp only [List.mem_singleton] at hin
    rw [hin]

/-- C6: `deleteConfig(name)` fails with a not-found error exactly when `name`
is absent from `apiConfigs`, fails with the last-profile error exactly when
`name` is the sole remaining profile, succeeds otherwise by removing the
profile and persisting the shrunk document; and on either failure no adapter
write occurs, leaving the persisted Document unchanged. -/
theorem deleteConfig_error_cases (d : ApiConfigData) (name : String) :
    ((deleteConfig d name).res = Except.error (ConfigError.notFound name) ↔
      name ∉ objKeys d.apiConfigs)
    ∧ ((deleteConfig d name).res = Except.error ConfigError.lastProfile ↔
      objKeys d.apiConfigs = [name])
    ∧ (name ∈ objKeys d.apiConfigs → objKeys d.apiConfigs ≠ [name] →
      deleteConfig d name =
        { res := Except.ok (),
          writes := [{ d with apiConfigs := objDelete d.apiConfigs name }] })
    ∧ (∀ e, (deleteConfig d name).res = Except.error e →
      (deleteConfig d name).writes = []
      ∧ persistedAfter d (deleteConfig d name).writes = d) := by
  by_cases habs : name ∈ objKeys d.apiConfigs
  · have hsome := not_isNone_objGet_of_mem d.apiConfigs name habs
    by_cases hlen : (objKeys d.apiConfigs).length = 1
    · have hsing := keys_eq_singleton_of_mem_len d.apiConfigs name habs hlen
      have hres : deleteConfig d name =
          { res := Except.error ConfigError.lastProfile, writes := [] } := by
        unfold deleteConfig
        rw [if_neg hsome, if_pos hlen]
      refine ⟨?_, ?_, ?_, ?_⟩
      · rw [hres]
        simp [habs]
      · rw [hres]
        simp [hsing]
      · intro _ hne
        exact absurd hsing hne
      · intro e _
        rw [hres]
        simp [persistedAfter]
    · have hres : deleteConfig d name =
          { res := Except.ok (),
            writes := [{ d with apiConfigs := objDelete d.apiConfigs name }] } := by
        unfold deleteConfig
        rw [if_neg hsome, if_neg hlen]
      refine ⟨?_, ?_, ?_, ?_⟩
      · rw [hres]
        simp [habs]
      · rw [hres]
        constructor
        · intro h
          cases h
        · intro hk
          exact absurd (by rw [hk]; rfl) hlen
      · intro _ _
        exact hres
      · intro e he
        rw [hres] at he
        cases he
  · have hnone := isNone_objGet_of_not_mem d.apiConfigs name habs
    have hres : deleteConfig d name =
        { res := Except.error (ConfigError.notFound name), writes := [] } := by
      unfold deleteConfig
      rw [if_pos hnone]
    refine ⟨?_, ?_, ?_, ?_⟩
    · rw [hres]
      simp [habs]
    · rw [hres]
      constructor
      · intro h
        cases h
      · intro hk
        rw [hk] at habs
        simp at habs
    · intro hin _
      exact absurd hin habs
    · intro e _
      rw [hres]
      simp [persistedAfter]

/-- Witness for `deleteConfig_error_cases`: deleting the non-last profile
"test" of a concrete two-profile document succeeds, removes it and persists
the shrunk document. -/
theorem deleteConfig_error_cases_witness :
    deleteConfig exampleTwoProfiles "test" =
      { res := Except.ok (), writes := [exampleTwoProfilesShrunk] } := by
  have h := (deleteConfig_error_cases exampleTwoProfiles "test").2.2.1
    (by decide) (by decide)
  rw [h]
  decide

/-- C1 counterexample: from the default Document, `saveConfig "b"` followed by
`deleteConfig "default"` (the active, non-last profile) succeeds and leaves
`currentApiConfigName = "default"` dangling: it is no longer a key of
`apiConfigs`, so the claimed invariant fails on a reachable document. -/
theorem deleteConfig_breaks_currentName_invariant :
    docInv (defaultConfig "id0")
    ∧ docInv (saveConfig (defaultConfig "id0") none "id1" "b" {}).1
    ∧ (deleteConfig (saveConfig (defaultConfig "id0") none "id1" "b" {}).1
        "default").res = Except.ok ()
    ∧ ¬ docInv (persistedAfter
        (saveConfig (defaultConfig "id0") none "id1" "b" {}).1
        (deleteConfig (saveConfig (defaultConfig "id0") none "id1" "b" {}).1
          "default").writes) := by
  decide

/-- C1 (amended): the default Document satisfies the invariant, and every
public operation preserves it — `saveConfig`, `loadConfig`,
`setCurrentConfig` and `setModeConfig` unconditionally, `deleteConfig` only
when the deleted name is not the active profile (deleting the active,
non-last profile leaves `currentApiConfigName` dangling, which is the sole
violation the code admits). -/
theorem currentName_invariant_preserved (d : ApiConfigData)
    (legacy : Option Int)
    (did freshId nameS nameL nameC nameD mode cfgId : String)
    (cfg : ApiConfiguration)
    (hinv : docInv d) (hdel : nameD ≠ d.currentApiConfigName) :
    docInv (defaultConfig did)
    ∧ docInv (persistedAfter d (saveConfig d legacy freshId nameS cfg).2)
    ∧ docInv (persistedAfter d (loadConfig d nameL).writes)
    ∧ docInv (persistedAfter d (setCurrentConfig d nameC).writes)
    ∧ docInv (persistedAfter d (setModeConfig d mode cfgId).2)
    ∧ docInv (persistedAfter d (deleteConfig d nameD).writes) := by
  refine ⟨?_, ?_, ?_, ?_, ?_, ?_⟩
  · simp [docInv, defaultConfig, objKeys]
  · show docInv (persistedAfter d (saveConfig d legacy freshId nameS cfg).2)
    unfold saveConfig persistedAfter
    simp only [List.getLast?_singleton]
    exact mem_objKeys_objSet d.apiConfigs d.currentApiConfigName nameS _ hinv
  · cases hL : objGet d.apiConfigs nameL with
    | none =>
      unfold loadConfig
      rw [hL]
      simpa [persistedAfter] using hinv
    | some a =>
      unfold loadConfig
      rw [hL]
      simp only [persistedAfter, List.getLast?_singleton]
      show nameL ∈ objKeys d.apiConfigs
      exact (objGet_isSome_iff d.apiConfigs nameL).mp (by rw [hL]; rfl)
  · by_cases hC : (objGet d.apiConfigs nameC).isNone = true
    · unfold setCurrentConfig
      rw [if_pos hC]
      simpa [persistedAfter] using hinv
    · unfold setCurrentConfig
      rw [if_neg hC]
      simp only [persistedAfter, List.getLast?_singleton]
      show nameC ∈ objKeys d.apiConfigs
      exact (objGet_isSome_iff d.apiConfigs nameC).mp
        (by simpa [Option.isNone_iff_eq_none, Option.isSome_iff_ne_none]
          using hC)
  · unfold setModeConfig
    simp only [persistedAfter, List.getLast?_singleton]
    exact hinv
  · by_cases hD : (objGet d.apiConfigs nameD).isNone = true
    · unfold deleteConfig
      rw [if_pos hD]
      simpa [persistedAfter] using hinv
    · by_cases hlen : (objKeys d.apiConfigs).length = 1
      · unfold deleteConfig
        rw [if_neg hD, if_pos hlen]
        simpa [persistedAfter] using hinv
      · unfold deleteConfig
        rw [if_neg hD, if_neg hlen]
        simp only [persistedAfter, List.getLast?_singleton]
        show d.currentApiConfigName ∈ objKeys (objDelete d.apiConfigs nameD)
        exact mem_objKeys_objDelete d.apiConfigs d.currentApiConfigName nameD
          hinv (Ne.symm hdel)

/-- Witness for `currentName_invariant_preserved` on the concrete
two-profile document, deleting the non-active profile "test". -/
theorem currentName_invariant_preserved_witness :
    docInv (defaultConfig "w0")
    ∧ docInv (persistedAfter exampleTwoProfiles
        (saveConfig exampleTwoProfiles none "w1" "p" {}).2)
    ∧ docInv (persistedAfter exampleTwoProfiles
        (loadConfig exampleTwoProfiles "test").writes)
    ∧ docInv (persistedAfter exampleTwoProfiles
        (setCurrentConfig exampleTwoProfiles "test").writes)
    ∧ docInv (persistedAfter exampleTwoProfiles
        (setModeConfig exampleTwoProfiles "code" "t1").2)
    ∧ docInv (persistedAfter exampleTwoProfiles
        (deleteConfig exampleTwoProfiles "test").writes) :=
  currentName_invariant_preserved exampleTwoProfiles none
    "w0" "w1" "p" "test" "test" "test" "code" "t1" {}
    (by decide) (by decide)

theorem saveEntry_rateLimit_backfill (d : ApiConfigData) (legacy : Option Int)
    (freshId name : String) (cfg : ApiConfiguration)
    (h : cfg.rateLimitSeconds = none) :
    (saveEntry d legacy freshId name cfg).rateLimitSeconds =
      some (match firstProfileRateLimit d with
        | some r => r
        | none =>
          match legacy with
          | some g => g
          | none => 5) := by
  unfold saveEntry firstProfileRateLimit
  simp [h]

theorem objGet_saveConfig_self (d : ApiConfigData) (legacy : Option Int)
    (freshId name : String) (cfg : ApiConfiguration) :
    objGet (saveConfig d legacy freshId name cfg).1.apiConfigs name =
      some (saveEntry d legacy freshId name cfg) :=
  objGet_objSet_self d.apiConfigs name (saveEntry d legacy freshId name cfg)

/-- C3 counterexample: in `exampleSecondHasRate` only the second profile "b"
has `rateLimitSeconds` (7), and the legacy global value is 3.  Saving a new
profile "c" without a rate limit back-fills it with the legacy value 3, not
with profile "b"'s 7: only the first profile in iteration order is ever
consulted, so the claim's "any existing profile" back-fill fails. -/
theorem saveConfig_backfill_ignores_second_profile :
    (objGet exampleSecondHasRate.apiConfigs "b").bind
        (fun c => c.rateLimitSeconds) = some 7
    ∧ (objGet (saveConfig exampleSecondHasRate (some 3) "f" "c"
        {}).1.apiConfigs "c").bind (fun c => c.rateLimitSeconds) = some 3
    ∧ ¬((objGet (saveConfig exampleSecondHasRate (some 3) "f" "c"
        {}).1.apiConfigs "c").bind (fun c => c.rateLimitSeconds) = some 7) := by
  decide

/-- C3 (amended): when the saved configuration lacks `rateLimitSeconds`, the
persisted profile's value is back-filled with, in priority order: (a) the
FIRST existing profile's already-set value — no other profile is consulted —
else (b) the legacy global-state value, else (c) the default 5. -/
theorem saveConfig_backfill_priority (d : ApiConfigData) (legacy : Option Int)
    (freshId name : String) (cfg : ApiConfiguration)
    (h : cfg.rateLimitSeconds = none) :
    (∀ r, firstProfileRateLimit d = some r →
      (objGet (saveConfig d legacy freshId name cfg).1.apiConfigs name).bind
        (fun c => c.rateLimitSeconds) = some r)
    ∧ (∀ g, firstProfileRateLimit d = none → legacy = some g →
      (objGet (saveConfig d legacy freshId name cfg).1.apiConfigs name).bind
        (fun c => c.rateLimitSeconds) = some g)
    ∧ (firstProfileRateLimit d = none → legacy = none →
      (objGet (saveConfig d legacy freshId name cfg).1.apiConfigs name).bind
        (fun c => c.rateLimitSeconds) = some 5) := by
  have hself := objGet_saveConfig_self d legacy freshId name cfg
  have hrl := saveEntry_rateLimit_backfill d legacy freshId name cfg h
  refine ⟨?_, ?_, ?_⟩
  · intro r hr
    rw [hself, Option.some_bind, hrl, hr]
  · intro g h1 h2
    rw [hself, Option.some_bind, hrl, h1, h2]
  · intro h1 h2
    rw [hself, Option.some_bind, hrl, h1, h2]

/-- Witness for `saveConfig_backfill_priority`: in `exampleSecondHasRate`
the first profile has no rate limit, so with legacy value 3 the new profile
"c" is back-filled with 3. -/
theorem saveConfig_backfill_priority_witness :
    (objGet (saveConfig exampleSecondHasRate (some 3) "f" "c"
        {}).1.apiConfigs "c").bind (fun c => c.rateLimitSeconds) = some 3 :=
  (saveConfig_backfill_priority exampleSecondHasRate (some 3) "f" "c" {}
    (by decide)).2.1 3 (by decide) rfl

theorem saveEntry_id (d : ApiConfigData) (legacy : Option Int)
    (freshId name : String) (cfg : ApiConfiguration) :
    (saveEntry d legacy freshId name cfg).id =
      some (jsOrStr ((objGet d.apiConfigs name).bind (fun c => c.id))
        freshId) := rfl

/-- C9 counterexample: `generateId` is `Math.random`-based and `saveConfig`
performs no collision check, so when the generated id coincides with an
existing profile's id ("d1"), the new profile "new" is persisted with an id
already in use: the freshly assigned id is not distinct from all existing
ids. -/
theorem saveConfig_fresh_id_can_collide :
    objGet exampleTwoProfiles.apiConfigs "new" = none
    ∧ (objGet (saveConfig exampleTwoProfiles none "d1" "new"
        {}).1.apiConfigs "new").bind (fun c => c.id) = some "d1"
    ∧ "d1" ∈ idsOf exampleTwoProfiles := by
  decide

/-- C9 (amended): `saveConfig` on an existing name whose stored profile has
a non-empty id preserves that id (it is never regenerated); on a name not
present it assigns exactly the freshly generated id, which is distinct from
every existing profile's id whenever the generated value does not already
occur among them — the code itself never checks for collisions. -/
theorem saveConfig_id_behavior (d : ApiConfigData) (legacy : Option Int)
    (freshId name : String) (cfg : ApiConfiguration) :
    (∀ ec s, objGet d.apiConfigs name = some ec → ec.id = some s → s ≠ "" →
      (objGet (saveConfig d legacy freshId name cfg).1.apiConfigs name).bind
        (fun c => c.id) = some s)
    ∧ (objGet d.apiConfigs name = none →
      (objGet (saveConfig d legacy freshId name cfg).1.apiConfigs name).bind
        (fun c => c.id) = some freshId)
    ∧ (objGet d.apiConfigs name = none → freshId ∉ idsOf d →
      ∀ s ∈ idsOf d,
        (objGet (saveConfig d legacy freshId name cfg).1.apiConfigs name).bind
          (fun c => c.id) ≠ some s) := by
  have hself := objGet_saveConfig_self d legacy freshId name cfg
  have hid := saveEntry_id d legacy freshId name cfg
  refine ⟨?_, ?_, ?_⟩
  · intro ec s hec hs hne
    rw [hself, Option.some_bind, hid, hec, Option.some_bind, hs]
    simp [jsOrStr, hne]
  · intro hnone
    rw [hself, Option.some_bind, hid, hnone]
    rfl
  · intro hnone hfresh s hs hc
    rw [hself, Option.some_bind, hid, hnone] at hc
    simp only [Option.none_bind, jsOrStr] at hc
    injection hc with hfs
    rw [hfs] at hfresh
    exact hfresh hs

/-- Witness for `saveConfig_id_behavior`: saving the absent name "p" into
the two-profile document with generated id "zz" stores the profile with id
"zz". -/
theorem saveConfig_id_behavior_witness :
    (objGet (saveConfig exampleTwoProfiles none "zz" "p"
        {}).1.apiConfigs "p").bind (fun c => c.id) = some "zz" :=
  (saveConfig_id_behavior exampleTwoProfiles none "zz" "p" {}).2.1 (by decide)

/-- C4 counterexample: on the empty override state, calling
`setProfileSpecificSetting("p", "rateLimitSeconds", 7)` while the pair is
not overridden immediately makes `isProfileSpecific` true and makes the UI
resolution return 7 instead of the global value 3 — the claim that the
recorded value has no resolution effect until toggled is false, because the
overridden flag is defined as "a value is recorded". -/
theorem setOverride_counterexample :
    isProfileSpecific exampleUIEmpty "p" "rateLimitSeconds" = false
    ∧ isProfileSpecific (setProfileSpecificSetting exampleUIEmpty "p"
        "rateLimitSeconds" 7) "p" "rateLimitSeconds" = true
    ∧ resolveSetting (setProfileSpecificSetting exampleUIEmpty "p"
        "rateLimitSeconds" 7) "p" "rateLimitSeconds" 3 = 7
    ∧ ¬(resolveSetting (setProfileSpecificSetting exampleUIEmpty "p"
        "rateLimitSeconds" 7) "p" "rateLimitSeconds" 3 = 3) := by
  decide

/-- C4 (amended): for a (profileId, settingName) pair whose override flag is
off, `setProfileSpecificSetting(profileId, settingName, v)` records `v` and
is immediately effective: the pair becomes overridden and resolution returns
`v` (not the global value), because `isProfileSpecific` is defined as "a
recorded value exists". -/
theorem setOverride_is_immediately_effective (st : UIState)
    (profileId setting : String) (v g : Int)
    (_h : isProfileSpecific st profileId setting = false) :
    isProfileSpecific (setProfileSpecificSetting st profileId setting v)
        profileId setting = true
    ∧ resolveSetting (setProfileSpecificSetting st profileId setting v)
        profileId setting g = v := by
  have key : (objGet (setProfileSpecificSetting st profileId setting
      v).profileSpecificSettings profileId).bind (fun ps => objGet ps setting)
      = some v := by
    unfold setProfileSpecificSetting
    rw [objGet_objSet_self, Option.some_bind, objGet_objSet_self]
  constructor
  · unfold isProfileSpecific
    rw [key]
    rfl
  · unfold resolveSetting isProfileSpecific
    rw [key]
    simp

/-- Witness for `setOverride_is_immediately_effective` on the empty override
state. -/
theorem setOverride_is_immediately_effective_witness :
    isProfileSpecific (setProfileSpecificSetting exampleUIEmpty "p2"
        "rateLimitSeconds" 9) "p2" "rateLimitSeconds" = true
    ∧ resolveSetting (setProfileSpecificSetting exampleUIEmpty "p2"
        "rateLimitSeconds" 9) "p2" "rateLimitSeconds" 4 = 9 :=
  setOverride_is_immediately_effective exampleUIEmpty "p2" "rateLimitSeconds"
    9 4 (by decide)

theorem assignIds_map_name_rl (ids : Nat → String)
    (l : List (String × ApiConfiguration)) :
    ∀ k, (assignIds ids k l).1.map (fun p => (p.1, p.2.rateLimitSeconds)) =
      l.map (fun p => (p.1, p.2.rateLimitSeconds)) := by
  induction l with
  | nil => intro k; rfl
  | cons p rest ih =>
    intro k
    obtain ⟨n, c⟩ := p
    unfold assignIds
    by_cases hc : idFalsy c.id = true
    · simp only [if_pos hc, List.map_cons, ih]
    · simp only [if_neg hc, List.map_cons, ih]

theorem migrateRateLimit_map_name_rl (legacy : Option Int)
    (config : ApiConfigData) :
    (migrateRateLimit legacy config).apiConfigs.map
        (fun p => (p.1, p.2.rateLimitSeconds)) =
      config.apiConfigs.map
        (fun p => (p.1, some (migratedRateLimit legacy
          p.2.rateLimitSeconds))) := by
  unfold migrateRateLimit
  rw [List.map_map]
  apply List.map_congr_left
  intro p _
  by_cases hrl : p.2.rateLimitSeconds = none
  · simp [hrl, migratedRateLimit]
  · obtain ⟨v, hv⟩ := Option.ne_none_iff_exists'.mp hrl
    simp [hv, migratedRateLimit]

theorem rlMigratedFlag_set_apiConfigs (d : ApiConfigData)
    (acs : List (String × ApiConfiguration)) :
    rlMigratedFlag { d with apiConfigs := acs } = rlMigratedFlag d := rfl

/-- C7: on a Document whose rate-limit migration flag is unset, the
migration pass keeps every profile name (in order), gives every profile
that lacked `rateLimitSeconds` the legacy global value — or 5 when the
legacy value is absent — never overwrites an already-present value, and
marks the migration applied afterward. -/
theorem rateLimit_migration_spec (doc : ApiConfigData) (ids : Nat → String)
    (legacy : Option Int) (h : rlMigratedFlag doc = false) :
    (ensureMigrated ids legacy doc).1.apiConfigs.map
        (fun p => (p.1, p.2.rateLimitSeconds)) =
      doc.apiConfigs.map
        (fun p => (p.1, some (migratedRateLimit legacy p.2.rateLimitSeconds)))
    ∧ rlMigratedFlag (ensureMigrated ids legacy doc).1 = true := by
  have key : ∀ (l : List (String × ApiConfiguration)),
      l.map (fun p => (p.1, some (migratedRateLimit legacy
        p.2.rateLimitSeconds))) =
      (l.map (fun p => (p.1, p.2.rateLimitSeconds))).map
        (fun q => (q.1, some (migratedRateLimit legacy q.2))) := by
    intro l
    rw [List.map_map]
    rfl
  unfold ensureMigrated
  cases hm : doc.migrations with
  | none =>
    have hflag : rlMigratedFlag
        { { doc with migrations := some {} } with
          apiConfigs := (assignIds ids 0 doc.apiConfigs).1 } = false := rfl
    simp only [hm, Option.isNone_none, if_true, hflag, if_pos]
    constructor
    · rw [migrateRateLimit_map_name_rl, key, key]
      rw [assignIds_map_name_rl]
    · rfl
  | some m =>
    have hflag : rlMigratedFlag
        { doc with apiConfigs := (assignIds ids 0 doc.apiConfigs).1 }
        = false := by
      rw [rlMigratedFlag_set_apiConfigs]
      exact h
    simp only [hm, Option.isNone_some, Bool.false_eq_true, if_false]
    rw [← hm]
    simp only [hflag, if_pos]
    constructor
    · rw [migrateRateLimit_map_name_rl, key, key]
      rw [assignIds_map_name_rl]
    · rfl

/-- Witness for `rateLimit_migration_spec`: on `exampleLegacyDoc` (flag
unset, profile "a" without the key, profile "b" with value 2) and legacy
value 10, profile "a" receives 10 and profile "b" keeps 2, and the flag is
set. -/
theorem rateLimit_migration_spec_witness :
    (ensureMigrated (fun _ => "gid") (some 10)
        exampleLegacyDoc).1.apiConfigs.map
        (fun p => (p.1, p.2.rateLimitSeconds)) =
      [("a", some 10), ("b", some 2)]
    ∧ rlMigratedFlag (ensureMigrated (fun _ => "gid") (some 10)
        exampleLegacyDoc).1 = true := by
  have h := rateLimit_migration_spec exampleLegacyDoc (fun _ => "gid")
    (some 10) (by decide)
  exact ⟨h.1.trans (by decide), h.2⟩

theorem assignIds_noop (ids : Nat → String)
    (l : List (String × ApiConfiguration))
    (h : ∀ p ∈ l, idFalsy p.2.id = false) :
    ∀ k, assignIds ids k l = (l, k, false) := by
  induction l with
  | nil => intro k; rfl
  | cons p rest ih =>
    intro k
    obtain ⟨n, c⟩ := p
    have hc : idFalsy c.id = false := h (n, c) (List.mem_cons_self _ _)
    have hrest : ∀ p ∈ rest, idFalsy p.2.id = false :=
      fun p hp => h p (List.mem_cons_of_mem _ hp)
    unfold assignIds
    rw [if_neg (by rw [hc]; exact Bool.false_ne_true), ih hrest k]

theorem assignIds_nonfalsy (ids : Nat → String) (hids : ∀ n, ids n ≠ "")
    (l : List (String × ApiConfiguration)) :
    ∀ k, ∀ p ∈ (assignIds ids k l).1, idFalsy p.2.id = false := by
  induction l with
  | nil =>
    intro k p hp
    cases hp
  | cons q rest ih =>
    intro k p hp
    obtain ⟨n, c⟩ := q
    unfold assignIds at hp
    by_cases hc : idFalsy c.id = true
    · rw [if_pos hc] at hp
      rcases List.mem_cons.mp hp with hh | ht
      · rw [hh]
        simp only [idFalsy]
        exact decide_eq_false (hids k)
      · exact ih (k + 1) p ht
    · rw [if_neg hc] at hp
      rcases List.mem_cons.mp hp with hh | ht
      · rw [hh]
        exact Bool.not_eq_true _ ▸ eq_false_of_ne_true hc
      · exact ih k p ht

theorem migrateRateLimit_preserves_ids (legacy : Option Int)
    (config : ApiConfigData) :
    ∀ p ∈ (migrateRateLimit legacy config).apiConfigs,
      ∃ q ∈ config.apiConfigs, p.2.id = q.2.id := by
  intro p hp
  unfold migrateRateLimit at hp
  rw [List.mem_map] at hp
  obtain ⟨q, hq, hqp⟩ := hp
  refine ⟨q, hq, ?_⟩
  by_cases hrl : q.2.rateLimitSeconds = none
  · rw [← hqp]
    simp [hrl]
  · rw [← hqp]
    simp [hrl]

theorem rlMigratedFlag_true_migrations_isSome (d : ApiConfigData)
    (h : rlMigratedFlag d = true) : d.migrations.isNone = false := by
  cases hm : d.migrations with
  | none =>
    unfold rlMigratedFlag at h
    rw [hm] at h
    cases h
  | some m => rfl

theorem ensureMigrated_flag_true (ids : Nat → String) (legacy : Option Int)
    (doc : ApiConfigData) :
    rlMigratedFlag (ensureMigrated ids legacy doc).1 = true := by
  unfold ensureMigrated
  dsimp only
  split
  · split
    · rfl
    · rename_i h2
      simpa using h2
  · split
    · rfl
    · rename_i h2
      simpa using h2

theorem ensureMigrated_ids_nonfalsy (ids : Nat → String)
    (hids : ∀ n, ids n ≠ "") (legacy : Option Int) (doc : ApiConfigData) :
    ∀ p ∈ (ensureMigrated ids legacy doc).1.apiConfigs,
      idFalsy p.2.id = false := by
  intro p hp
  unfold ensureMigrated at hp
  dsimp only at hp
  split at hp <;> split at hp <;>
    first
      | (obtain ⟨q, hq, hpq⟩ := migrateRateLimit_preserves_ids legacy _ p hp
         rw [hpq]
         exact assignIds_nonfalsy ids hids _ 0 q hq)
      | exact assignIds_nonfalsy ids hids _ 0 p hp

/-- C8: the migration pass is idempotent: running `ensureMigrated` a second
time — with any id supply and any legacy value — on the output of a first
run (whose generated ids are non-empty, as `generateId`'s are) returns that
output unchanged with `needsMigration = false`, and the corresponding
second `initConfig` performs no adapter write. -/
theorem ensureMigrated_idempotent (ids ids2 : Nat → String)
    (legacy legacy2 : Option Int) (doc : ApiConfigData) (did : String)
    (hids : ∀ n, ids n ≠ "") :
    ensureMigrated ids2 legacy2 (ensureMigrated ids legacy doc).1 =
      ((ensureMigrated ids legacy doc).1, false)
    ∧ (initConfig (some (ensureMigrated ids legacy doc).1) did ids2
        legacy2).2 = [] := by
  have hA := ensureMigrated_flag_true ids legacy doc
  have hB := ensureMigrated_ids_nonfalsy ids hids legacy doc
  have hmain : ensureMigrated ids2 legacy2 (ensureMigrated ids legacy doc).1 =
      ((ensureMigrated ids legacy doc).1, false) := by
    generalize hd1 : (ensureMigrated ids legacy doc).1 = d1 at hA hB
    have hC := rlMigratedFlag_true_migrations_isSome d1 hA
    unfold ensureMigrated
    rw [hC]
    simp only [Bool.false_eq_true, if_false]
    rw [assignIds_noop ids2 d1.apiConfigs hB 0]
    have heta : ({ d1 with apiConfigs := d1.apiConfigs } : ApiConfigData)
        = d1 := rfl
    rw [heta, hA]
    simp
  refine ⟨hmain, ?_⟩
  unfold initConfig
  simp only [readConfig]
  rw [hmain]
  simp

/-- Witness for `ensureMigrated_idempotent`: a second migration pass over
the migrated `exampleLegacyDoc` changes nothing and writes nothing. -/
theorem ensureMigrated_idempotent_witness :
    ensureMigrated (fun _ => "h") none
        (ensureMigrated (fun _ => "g") (some 10) exampleLegacyDoc).1 =
      ((ensureMigrated (fun _ => "g") (some 10) exampleLegacyDoc).1, false)
    ∧ (initConfig (some (ensureMigrated (fun _ => "g") (some 10)
        exampleLegacyDoc).1) "did" (fun _ => "h") none).2 = [] :=
  ensureMigrated_idempotent (fun _ => "g") (fun _ => "h") (some 10) none
    exampleLegacyDoc "did" (by
      intro n
      show "g" ≠ ""
      decide)

/-- C5 counterexample: on `exampleLegacyDoc` both migration steps mutate
state (profile "a" has no id, and the rate-limit migration flag is unset),
yet `initConfig` issues exactly one adapter write — the combined final
document — instead of one write-through per mutating step, so the claim
that each step persists before the next step runs is false. -/
theorem initConfig_combined_write_counterexample :
    (assignIds (fun _ => "gid") 0 exampleLegacyDoc.apiConfigs).2.2 = true
    ∧ rlMigratedFlag exampleLegacyDoc = false
    ∧ (initConfig (some exampleLegacyDoc) "did" (fun _ => "gid")
        (some 10)).2.length = 1
    ∧ ¬(2 ≤ (initConfig (some exampleLegacyDoc) "did" (fun _ => "gid")
        (some 10)).2.length) := by
  decide

/-- C5 (amended): `initConfig` applies all migration steps in memory and
performs at most one adapter write: every written blob is the final fully
migrated document, and no write happens at all exactly when no step mutated
(`needsMigration` false).  No intermediate per-step state is ever
persisted. -/
theorem initConfig_single_combined_write (store : Option ApiConfigData)
    (did : String) (ids : Nat → String) (legacy : Option Int) :
    (initConfig store did ids legacy).2.length ≤ 1
    ∧ (∀ w ∈ (initConfig store did ids legacy).2,
        w = (initConfig store did ids legacy).1)
    ∧ ((initConfig store did ids legacy).2 = [] ↔
        (ensureMigrated ids legacy (readConfig store did)).2 = false) := by
  unfold initConfig
  dsimp only
  by_cases hneeds : (ensureMigrated ids legacy (readConfig store did)).2 = true
  · rw [if_pos hneeds]
    refine ⟨by simp, ?_, ?_⟩
    · intro w hw
      rcases List.mem_singleton.mp hw with h
      rw [h]
    · simp [hneeds]
  · rw [if_neg hneeds]
    refine ⟨by simp, ?_, ?_⟩
    · intro w hw
      cases hw
    · simp only [true_iff]
      exact Bool.not_eq_true _ ▸ eq_false_of_ne_true hneeds

/-- Witness for `initConfig_single_combined_write`: a fresh store (no blob)
serves the default Document, which needs no migration, so the first
`initConfig` performs no adapter write. -/
theorem initConfig_single_combined_write_witness :
    (initConfig none "w" (fun _ => "g") none).2 = [] :=
  (initConfig_single_combined_write none "w" (fun _ => "g") none).2.2.mpr
    (by decide)

/-- C10: the read-only operations `listConfig`, `hasConfig` and
`getModeConfigId` never write to (or delete from) the persistence adapter,
for every state of the store; and on a fresh store (no persisted blob)
`listConfig` serves the in-memory default Document — exactly one profile
named "default" carrying the constructor-generated id — without persisting
it. -/
theorem readonly_ops_no_writes (store : Option ApiConfigData)
    (did name mode : String) :
    (listConfig store did).2 = []
    ∧ (hasConfig store did name).2 = []
    ∧ (getModeConfigId store did mode).2 = []
    ∧ (listConfig none did).1 =
        [{ name := "default", id := did, apiProvider := none }] := by
  refine ⟨rfl, rfl, rfl, ?_⟩
  by_cases hd : did = ""
  · simp [listConfig, readConfig, defaultConfig, jsOrStr, hd]
  · simp [listConfig, readConfig, defaultConfig, jsOrStr, hd]
